import Mathlib

/-!
# Verification of the mirroring helpers of `chef.py`

This file gives a shallow embedding, in Lean 4, of the pure helper functions
of the Thoughtful Learning sushi chef (`chef.py`) and proves the testable
properties of its specification against that embedding.

Modelling conventions:
* Python strings are modelled as `List Char`; `str.lower()` is modelled as a
  character-wise `Char.toLower` map (exact for the ASCII data handled here).
* Python library helpers that `chef.py` calls (`urllib.parse.urlparse`,
  `urllib.parse.parse_qs`, `os.path.basename`) are modelled after their
  CPython implementations, restricted to the features they use here.
* The network, the shared `requests` session and `BeautifulSoup` documents are
  modelled with explicit data: a fetch oracle mapping attempt numbers to
  outcomes, an explicit cookie-jar value, and a rose tree of document nodes.
* Fallible Python code is embedded with `Except`/explicit error constructors.
-/

namespace Chef

/-- Python `str.lower()`, character-wise (`Char.toLower` is the ASCII case map,
which is exact for every string this program lowercases). -/
def pyLower (s : List Char) : List Char := s.map Char.toLower

/-- Python `str.startswith(needle)`. -/
def pyStartsWith (needle s : List Char) : Bool := needle.isPrefixOf s

/-- The Python substring test `needle in haystack`. -/
def containsSub (needle haystack : List Char) : Bool :=
  haystack.tails.any (fun t => needle.isPrefixOf t)

/-- Python `str.replace(a, b)` for single characters `a`, `b` (for
one-character patterns, `str.replace` is exactly a character-wise map). -/
def pyReplaceChar (a b : Char) (s : List Char) : List Char :=
  s.map (fun c => if c = a then b else c)

/-! ## `make_fully_qualified_url` (chef.py lines 546-558) -/

/-- The base origin hard-coded in `make_fully_qualified_url`. -/
def baseOrigin : List Char := "https://k12.thoughtfullearning.com".toList

/-- Embedding of `make_fully_qualified_url(url)` (chef.py lines 546-558):
five ordered rules, first match wins. -/
def make_fully_qualified_url (url : List Char) : List Char :=
  if pyStartsWith ("../images".toList) url then baseOrigin ++ url.drop 2
  else if pyStartsWith ("../scripts".toList) url then baseOrigin ++ url.drop 2
  else if pyStartsWith ("//".toList) url then ("http:".toList) ++ url
  else if pyStartsWith ("/".toList) url then baseOrigin ++ url
  else if ¬ pyStartsWith ("http".toList) url then baseOrigin ++ '/' :: url
  else url

/-- Modelled from the spec: the resolver contract
`resolve(base_origin, raw_ref)` of spec section 4.2, with the base origin as
an explicit parameter (the code hard-codes it); same five ordered rules. -/
def resolve (base url : List Char) : List Char :=
  if pyStartsWith ("../images".toList) url then base ++ url.drop 2
  else if pyStartsWith ("../scripts".toList) url then base ++ url.drop 2
  else if pyStartsWith ("//".toList) url then ("http:".toList) ++ url
  else if pyStartsWith ("/".toList) url then base ++ url
  else if ¬ pyStartsWith ("http".toList) url then base ++ '/' :: url
  else url

/-! ## `truncate_metadata` (chef.py lines 471-475) -/

/-- Embedding of `truncate_metadata(data_string)` (chef.py lines 471-475):
strings longer than `MAX_CHARS = 190` are cut to their first 190 characters
and get a four-character `" ..."` suffix. -/
def truncate_metadata (data_string : List Char) : List Char :=
  if 190 < data_string.length then data_string.take 190 ++ (" ...".toList)
  else data_string

/-! ## `url_blacklist` and `is_blacklisted` (chef.py lines 478-509) -/

/-- Embedding of the `url_blacklist` list (chef.py lines 478-506). -/
def url_blacklist : List (List Char) :=
  [ "analytics.js".toList,
    "infocusbackground.png".toList,
    "menuicon.svg".toList,
    "elaspan.png".toList,
    "selspan.png".toList,
    "21cspan.png".toList,
    "js_gwq7iqjiqf3enczoxfuyelw46y9cqcl0duc3fh2kku8.js".toList,
    "writersexpressbackground.png".toList,
    "newsletterdino.png".toList,
    "inquirecoverspan.png".toList,
    "jquery.min.js".toList,
    "tlstudents.jpg".toList,
    "buttons.js".toList,
    "inquireplane.png".toList,
    "platform.js".toList,
    "processedit.png".toList,
    "js_blxotns2yt7yglf9qri9l9amfdnkqfnn-_adbtw3sie.js".toList,
    "processprewrite.png".toList,
    "writersexpressfish.png".toList,
    "elastudent.jpg".toList,
    "opener_chpt3.jpg".toList,
    "inquiresky.png".toList,
    "processpublish.png".toList,
    "processwrite.png".toList,
    "processrevise.png".toList,
    "opener_chpt1.jpg".toList,
    "inquireto.png".toList ]

/-- Embedding of `is_blacklisted(url)` (chef.py lines 508-509):
`any((item in url.lower()) for item in url_blacklist)`. -/
def is_blacklisted (url : List Char) : Bool :=
  url_blacklist.any (fun item => containsSub item (pyLower url))

/-! ## A model of `urllib.parse.urlparse` and `os.path.basename`

`chef.py` uses `urlparse(url).path`, `urlparse(url).hostname`,
`urlparse(url).query` and `parse_qs`.  The model below follows CPython's
`urlsplit`: optional scheme (letters, digits, `+`, `-`, `.` before the first
colon), optional `//netloc` delimited by `/`, `?` or `#`, fragment after the
first `#`, query after the first `?`. -/

/-- The characters CPython allows in a URL scheme. -/
def isSchemeChar (c : Char) : Bool :=
  c.isAlpha || c.isDigit || c = '+' || c = '-' || c = '.'

/-- Whether a list of characters starts with an ASCII letter. -/
def headIsAlpha : List Char → Bool
  | [] => false
  | c :: _ => c.isAlpha

/-- Scheme recognition of CPython `urlsplit`: the part before the first colon
is a scheme when it is nonempty, begins with an ASCII letter and consists of
scheme characters only; the scheme is lower-cased and stripped. -/
def splitScheme (s : List Char) : Option (List Char) × List Char :=
  let before := s.takeWhile (fun c => c ≠ ':')
  if before.length < s.length ∧ headIsAlpha before ∧ before.all isSchemeChar then
    (some (pyLower before), s.drop (before.length + 1))
  else
    (none, s)

/-- `_splitnetloc` of CPython `urlsplit`: the network location runs from after
`//` to the first `/`, `?` or `#`. -/
def splitNetloc (s : List Char) : List Char × List Char :=
  let netloc := s.takeWhile (fun c => c ≠ '/' ∧ c ≠ '?' ∧ c ≠ '#')
  (netloc, s.drop netloc.length)

/-- The fields of `urlparse` that `chef.py` reads. -/
structure UrlParts where
  scheme : Option (List Char)
  netloc : List Char
  path : List Char
  query : List Char

/-- Model of `urllib.parse.urlparse`, restricted to the fields used by
`chef.py` (scheme, netloc, path, query), following CPython `urlsplit`. -/
def urlparse (url : List Char) : UrlParts :=
  let (scheme, u1) := splitScheme url
  let (netloc, u2) :=
    if pyStartsWith ("//".toList) u1 then splitNetloc (u1.drop 2)
    else ([], u1)
  let u3 := u2.takeWhile (fun c => c ≠ '#')
  let path := u3.takeWhile (fun c => c ≠ '?')
  let query := if path.length < u3.length then u3.drop (path.length + 1) else []
  { scheme := scheme, netloc := netloc, path := path, query := query }

/-- The part of `l` after its last occurrence of `a` (all of `l` when `a` does
not occur): Python `l.rpartition(a)[2]`. -/
def afterLast (a : Char) (l : List Char) : List Char :=
  (l.reverse.takeWhile (fun c => c ≠ a)).reverse

/-- Model of the `hostname` property of a CPython parse result: the netloc
after the last `@`, up to `:` (or the bracketed IPv6 host), lower-cased;
`none` when empty. -/
def hostnameOf (parts : UrlParts) : Option (List Char) :=
  let hostinfo := afterLast '@' parts.netloc
  let host :=
    match hostinfo with
    | '[' :: rest => rest.takeWhile (fun c => c ≠ ']')
    | _ => hostinfo.takeWhile (fun c => c ≠ ':')
  if host = [] then none else some (pyLower host)

/-- Model of `os.path.basename` (posixpath): the part of the path after its
last `/`. -/
def basename (p : List Char) : List Char := afterLast '/' p

/-! ## `derive_filename` (chef.py lines 512-514)

`derive_filename(url)` builds
`("%s.%s" % (uuid.uuid4().hex, name)).lower()` where
`name = os.path.basename(urlparse(url).path).replace('%', '_')`.
The freshly drawn random token `uuid.uuid4().hex` (32 lower-case hexadecimal
digits) is made an explicit argument of the embedding. -/

/-- Hexadecimal digit of a `uuid4().hex` token. -/
def isHexChar (c : Char) : Bool := c ∈ ("0123456789abcdef".toList)

/-- Shape of a `uuid.uuid4().hex` token: 32 lower-case hexadecimal digits. -/
def isUuidHexToken (t : List Char) : Bool := t.length == 32 && t.all isHexChar

/-- Embedding of `derive_filename(url)` (chef.py lines 512-514), with the
per-call random token `uuid.uuid4().hex` passed explicitly as `token`. -/
def derive_filename (token url : List Char) : List Char :=
  pyLower (token ++ '.' :: pyReplaceChar '%' '_' (basename (urlparse url).path))

/-! ## `get_youtube_id_from_url` (chef.py lines 442-462) -/

/-- Python exceptions that `get_youtube_id_from_url` can raise. -/
inductive PyErr where
  | keyError
  | indexError
deriving DecidableEq

/-- One percent-escape decoding step of `urllib.parse.unquote`. -/
def hexVal (c : Char) : Option Nat :=
  if c.isDigit then some (c.toNat - 48)
  else if 'a' ≤ c ∧ c ≤ 'f' then some (c.toNat - 87)
  else if 'A' ≤ c ∧ c ≤ 'F' then some (c.toNat - 55)
  else none

/-- Model of `urllib.parse.unquote_plus` on query data: `+` becomes a space
and `%XY` hex escapes are decoded byte-wise (multi-byte UTF-8 sequences are
modelled as their individual bytes, which is exact for the ASCII video ids
handled here). -/
def pyUnquotePlus : List Char → List Char
  | [] => []
  | '%' :: a :: b :: rest =>
    match hexVal a, hexVal b with
    | some x, some y => Char.ofNat (16 * x + y) :: pyUnquotePlus rest
    | _, _ => '%' :: pyUnquotePlus (a :: b :: rest)
  | c :: rest => (if c = '+' then ' ' else c) :: pyUnquotePlus rest

/-- Model of `urllib.parse.parse_qsl(qs)` with default arguments: split on
`&`, skip empty fields, skip fields without `=` or with an empty value,
unquote names and values. -/
def parseQsl (qs : List Char) : List (List Char × List Char) :=
  (qs.splitOn '&').filterMap (fun nv =>
    if nv = [] then none
    else
      let name := nv.takeWhile (fun c => c ≠ '=')
      if name.length = nv.length then none
      else
        let value := nv.drop (name.length + 1)
        if value = [] then none
        else some (pyUnquotePlus name, pyUnquotePlus value))

/-- `parse_qs(qs)[key][0]`: the first value listed for `key` (`parse_qs`
groups `parse_qsl` pairs by key, keeping value order). -/
def qsFirstValue (key qs : List Char) : Option (List Char) :=
  ((parseQsl qs).find? (fun kv => kv.1 == key)).map (fun kv => kv.2)

/-- Python `path.split('/')[i]` as an `Except` (IndexError when absent). -/
def splitSlashGet (p : List Char) (i : Nat) : Except PyErr (List Char) :=
  match (p.splitOn '/').get? i with
  | some seg => Except.ok seg
  | none => Except.error PyErr.indexError

/-- Embedding of `get_youtube_id_from_url(value)` (chef.py lines 442-462).
`Except.ok (some id)` is a returned id, `Except.ok none` is the final
`return None`, `Except.error` is a raised exception (`p['v'][0]` raises
`KeyError` when the query has no `v` parameter). -/
def get_youtube_id_from_url (value : List Char) : Except PyErr (Option (List Char)) :=
  let query := urlparse value
  if hostnameOf query = some ("youtu.be".toList) then
    Except.ok (some (query.path.drop 1))
  else if hostnameOf query = some ("www.youtube.com".toList) ∨
      hostnameOf query = some ("youtube.com".toList) then
    if query.path = ("/watch".toList) then
      match qsFirstValue ("v".toList) query.query with
      | some v => Except.ok (some v)
      | none => Except.error PyErr.keyError
    else if query.path.take 7 = ("/embed/".toList) then
      (splitSlashGet query.path 2).map some
    else if query.path.take 3 = ("/v/".toList) then
      (splitSlashGet query.path 2).map some
    else Except.ok none
  else Except.ok none

/-! ## `make_request` (chef.py lines 517-538)

The embedding makes the effects of `make_request` explicit:

* the network is a fetch oracle `fetch : Nat → FetchOutcome` giving, for each
  attempt number (0-based), either a completed HTTP response or a raised
  `requests.exceptions.ConnectionError` / `ReadTimeout`;
* the shared session's cookie store `sess.cookies` is an explicit jar value;
  the trace records the jar attached to every request actually issued;
* `time.sleep(retry_count * 1)` is recorded as the slept amount;
* the `except` branch ends, once `retry_count >= max_retries`, with
  `return Dummy404ResponseObject(url=url)`.  `chef.py` neither imports nor
  defines the name `Dummy404ResponseObject`, so evaluating that line raises
  `NameError`; the embedding records this outcome as `nameErrorDummy404`. -/

/-- An HTTP response, as far as `make_request` inspects it. -/
structure Response where
  status : Nat
  body : List Char
deriving DecidableEq

/-- What one `sess.get` attempt does: complete with a response, or raise a
connection error / read timeout. -/
inductive FetchOutcome where
  | success (r : Response)
  | connError
deriving DecidableEq

/-- The cookies stored in the shared `requests` session. -/
abbrev CookieJar := List (List Char × List Char)

/-- How a `make_request` call ends: a returned response, or the `NameError`
raised by evaluating the unbound name `Dummy404ResponseObject`. -/
inductive MRResult where
  | response (r : Response)
  | nameErrorDummy404
deriving DecidableEq

/-- The `while True` retry loop of `make_request` (chef.py lines 521-533),
with `retry_count` the loop counter and `max_retries = 5`.  Returns the
result, the cookie jar sent with each issued request, and the slept amounts.
The loop body increments `retry_count` on error, sleeps `retry_count * 1`,
and returns once `retry_count >= 5`; it therefore runs at most five
iterations, so `fuel = 5 - retry_count` makes the recursion total without
cutting any reachable iteration. -/
def make_request_loop (fetch : Nat → FetchOutcome) (jar : CookieJar) :
    Nat → Nat → MRResult × List CookieJar × List Nat
  | _, 0 => (MRResult.nameErrorDummy404, [], [])
  | retry_count, fuel + 1 =>
    match fetch retry_count with
    | FetchOutcome.success r => (MRResult.response r, [jar], [])
    | FetchOutcome.connError =>
      let rc := retry_count + 1
      if 5 ≤ rc then (MRResult.nameErrorDummy404, [jar], [rc * 1])
      else
        let rest := make_request_loop fetch jar rc fuel
        (rest.1, jar :: rest.2.1, (rc * 1) :: rest.2.2)

/-- The observable trace of one `make_request` call. -/
structure MRTrace where
  result : MRResult
  sentCookies : List CookieJar
  sleeps : List Nat
  loggedNotFound : Bool
deriving DecidableEq

/-- Embedding of `make_request(url, clear_cookies=True, timeout=60, ...)`
(chef.py lines 517-538).  `jar` is the session cookie store as left by prior
requests; with `clear_cookies` it is cleared (`sess.cookies.clear()`) before
the loop starts.  After a completed response, a status other than 200 is
logged (`print("NOT FOUND:", url)`) and the response is returned unchanged. -/
def make_request (fetch : Nat → FetchOutcome) (clear_cookies : Bool)
    (jar : CookieJar) : MRTrace :=
  let jar0 := if clear_cookies then [] else jar
  let out := make_request_loop fetch jar0 0 5
  { result := out.1
    sentCookies := out.2.1
    sleeps := out.2.2
    loggedNotFound :=
      match out.1 with
      | MRResult.response r => decide (r.status ≠ 200)
      | MRResult.nameErrorDummy404 => false }

/-- A fetch target that fails with a connection error on every attempt. -/
def alwaysFails : Nat → FetchOutcome := fun _ => FetchOutcome.connError

/-- A fetch oracle for the C6 witness: two connection errors, then a 404
response whose body is still delivered. -/
def fetch404 : Nat → FetchOutcome := fun i =>
  if i = 2 then FetchOutcome.success { status := 404, body := ("oops".toList) }
  else FetchOutcome.connError

/-! ## `remove_node` (chef.py lines 465-468)

`remove_node(doc, selector)` runs `node = doc.select_one(selector)` and, when
a node was found, `node.decompose()`.  A parsed document is modelled as a
forest of elements; each element carries a label (an abstract stand-in for
its tag, attributes and text — everything a CSS selector for this program
inspects) and its child elements.  A selector is therefore a predicate on
labels, and `select_one` returns the first match in document (preorder)
order, which is BeautifulSoup's document order. -/

/-- A BeautifulSoup element: a label (the element's own data) and its
children. -/
inductive HNode where
  | node : Nat → List HNode → HNode

/-- The labels of a forest in document (preorder) order. -/
def flattenLabels : List HNode → List Nat
  | [] => []
  | HNode.node a ch :: rest => a :: (flattenLabels ch ++ flattenLabels rest)

/-- `doc.select_one(selector)`: the first element matching `p` in document
order (`none` when nothing matches). -/
def select_one (p : Nat → Bool) (doc : List HNode) : Option Nat :=
  (flattenLabels doc).find? p

/-- One preorder pass fusing `doc.select_one(selector)` with
`node.decompose()`: remove the first element matching `p` together with its
subtree, or return `none` when nothing matches.  The theorem
`remove_node_first_match` below shows the removed element is exactly the
`select_one` match. -/
def removeFirstF (p : Nat → Bool) : List HNode → Option (List HNode)
  | [] => none
  | HNode.node a ch :: rest =>
    if p a then some rest
    else match removeFirstF p ch with
      | some ch2 => some (HNode.node a ch2 :: rest)
      | none => match removeFirstF p rest with
        | some rest2 => some (HNode.node a ch :: rest2)
        | none => none

/-- Embedding of `remove_node(doc, selector)` (chef.py lines 465-468): when
`select_one` finds no node (`if node:` is false) the document is returned
untouched, otherwise the found node is decomposed. -/
def remove_node (p : Nat → Bool) (doc : List HNode) : List HNode :=
  match removeFirstF p doc with
  | some doc2 => doc2
  | none => doc

/-- Two fresh uuid tokens for the C4 witness. -/
def tokenA : List Char := List.replicate 32 'a'

/-- See `tokenA`. -/
def tokenB : List Char := List.replicate 32 'b'

/-- A fresh uuid token for the C5 witness. -/
def hexTok : List Char := "0123456789abcdef0123456789abcdef".toList

/-- A selector for the C10 witness: matches label 2. -/
def sel2 : Nat → Bool := fun a => a == 2

/-- A document for the C10 witness: the subtree labelled 2 (with child 3)
sits between elements labelled 1 and 5. -/
def doc2 : List HNode :=
  [HNode.node 1 [], HNode.node 2 [HNode.node 3 []], HNode.node 5 []]

/-! ## Helper lemmas for `remove_node` -/

theorem removeFirstF_eq_none (p : Nat → Bool) (ns : List HNode)
    (h : ∀ x ∈ flattenLabels ns, p x = false) : removeFirstF p ns = none := by
  induction ns using removeFirstF.induct p with
  | case1 => simp [removeFirstF]
  | case2 a ch rest hp =>
    have := h a (by simp [flattenLabels])
    simp [hp] at this
  | case3 a ch rest hp ch2 hch ih =>
    exact absurd (ih (fun x hx => h x (by simp [flattenLabels]; right; left; exact hx)))
      (by simp [hch])
  | case4 a ch rest hp hch rest2 hrest ih1 ih2 =>
    exact absurd (ih2 (fun x hx => h x (by simp [flattenLabels]; right; right; exact hx)))
      (by simp [hrest])
  | case5 a ch rest hp hch hrest ih1 ih2 =>
    simp [removeFirstF, hp, hch, hrest]

theorem all_false_of_removeFirstF_none (p : Nat → Bool) (ns : List HNode)
    (h : removeFirstF p ns = none) : ∀ x ∈ flattenLabels ns, p x = false := by
  induction ns using removeFirstF.induct p with
  | case1 => simp [flattenLabels]
  | case2 a ch rest hp => simp [removeFirstF, hp] at h
  | case3 a ch rest hp ch2 hch ih => simp [removeFirstF, hp, hch] at h
  | case4 a ch rest hp hch rest2 hrest ih1 ih2 => simp [removeFirstF, hp, hch, hrest] at h
  | case5 a ch rest hp hch hrest ih1 ih2 =>
    intro x hx
    simp [flattenLabels] at hx
    rcases hx with rfl | hx | hx
    · simpa using hp
    · exact ih1 hch x hx
    · exact ih2 hrest x hx

theorem removeFirstF_some_span (p : Nat → Bool) (ns : List HNode) :
    ∀ ns2, removeFirstF p ns = some ns2 →
    ∃ pre a ch suf, flattenLabels ns = pre ++ (a :: flattenLabels ch) ++ suf ∧
      flattenLabels ns2 = pre ++ suf ∧ (∀ x ∈ pre, p x = false) ∧ p a = true := by
  induction ns using removeFirstF.induct p with
  | case1 =>
    intro ns2 h
    simp [removeFirstF] at h
  | case2 a ch rest hp =>
    intro ns2 h
    simp [removeFirstF, hp] at h
    subst h
    exact ⟨[], a, ch, flattenLabels rest, by simp [flattenLabels], rfl, by simp, hp⟩
  | case3 a ch rest hp ch2 hch ih =>
    intro ns2 h
    simp [removeFirstF, hp, hch] at h
    subst h
    obtain ⟨pre, b, bc, suf, e1, e2, hpre, hb⟩ := ih ch2 hch
    refine ⟨a :: pre, b, bc, suf ++ flattenLabels rest, ?_, ?_, ?_, hb⟩
    · simp [flattenLabels, e1, List.append_assoc]
    · simp [flattenLabels, e2, List.append_assoc]
    · intro x hx
      rcases List.mem_cons.mp hx with rfl | hx
      · simpa using hp
      · exact hpre x hx
  | case4 a ch rest hp hch rest2 hrest ih1 ih2 =>
    intro ns2 h
    simp [removeFirstF, hp, hch, hrest] at h
    subst h
    obtain ⟨pre, b, bc, suf, e1, e2, hpre, hb⟩ := ih2 rest2 hrest
    have hallch := all_false_of_removeFirstF_none p ch hch
    refine ⟨a :: (flattenLabels ch ++ pre), b, bc, suf, ?_, ?_, ?_, hb⟩
    · simp [flattenLabels, e1, List.append_assoc]
    · simp [flattenLabels, e2, List.append_assoc]
    · intro x hx
      rcases List.mem_cons.mp hx with rfl | hx
      · simpa using hp
      · rcases List.mem_append.mp hx with hx | hx
        · exact hallch x hx
        · exact hpre x hx
  | case5 a ch rest hp hch hrest ih1 ih2 =>
    intro ns2 h
    simp [removeFirstF, hp, hch, hrest] at h

theorem find?_span (p : Nat → Bool) (pre l suf : List Nat) (a : Nat)
    (hpre : ∀ x ∈ pre, p x = false) (ha : p a = true) :
    (pre ++ (a :: l) ++ suf).find? p = some a := by
  have h1 : pre.find? p = none := by
    rw [List.find?_eq_none]
    intro x hx
    simp [hpre x hx]
  simp [List.find?_append, h1, List.find?_cons_of_pos _ ha]

/-! ## Character-level facts about `Char.toLower` -/

theorem toLower_eq (c : Char) :
    Char.toLower c =
      if c.toNat ≥ 65 ∧ c.toNat ≤ 90 then Char.ofNat (c.toNat + 32) else c := by
  rw [Char.toLower]

/-- Lower-casing never yields an upper-case letter. -/
theorem isUpper_toLower (c : Char) : (Char.toLower c).isUpper = false := by
  rw [toLower_eq]
  by_cases h : c.toNat ≥ 65 ∧ c.toNat ≤ 90
  · rw [if_pos h]
    obtain ⟨h1, h2⟩ := h
    set n := c.toNat
    interval_cases n <;> decide
  · rw [if_neg h]
    rw [Char.isUpper]
    simp only [Char.toNat] at h
    have h2 : c.val.toNat < 65 ∨ 90 < c.val.toNat := by omega
    rcases h2 with h2 | h2
    · have : ¬((65 : UInt32) ≤ c.val) := by
        intro hc
        have h3 : (65 : Nat) ≤ c.val.toNat := @UInt32.le_toNat_of_le c.val 65 (by norm_num) hc
        omega
      simp [this]
    · have : ¬(c.val ≤ (90 : UInt32)) := by
        intro hc
        have h3 : c.val.toNat ≤ 90 := @UInt32.toNat_le_of_le c.val 90 (by norm_num) hc
        omega
      simp [this]

/-- Lower-casing never introduces a percent sign. -/
theorem toLower_ne_pct (c : Char) (hc : c ≠ '%') : Char.toLower c ≠ '%' := by
  rw [toLower_eq]
  by_cases h : c.toNat ≥ 65 ∧ c.toNat ≤ 90
  · rw [if_pos h]
    obtain ⟨h1, h2⟩ := h
    set n := c.toNat
    interval_cases n <;> decide
  · rw [if_neg h]
    exact hc

/-- Hexadecimal digits are fixed by `Char.toLower`. -/
theorem toLower_of_hexChar (c : Char) (h : isHexChar c = true) : Char.toLower c = c := by
  have hall : ∀ x ∈ ("0123456789abcdef".toList), Char.toLower x = x := by decide
  have hmem : c ∈ ("0123456789abcdef".toList) := by simpa [isHexChar] using h
  exact hall c hmem

/-- Hexadecimal digits are not the percent sign. -/
theorem hexChar_ne_pct (c : Char) (h : isHexChar c = true) : c ≠ '%' := by
  intro he
  subst he
  exact absurd h (by decide)

/-- A string of hexadecimal digits is fixed by `str.lower()`. -/
theorem pyLower_of_all_hex (t : List Char) (h : t.all isHexChar = true) :
    pyLower t = t := by
  induction t with
  | nil => rfl
  | cons c t ih =>
    simp only [List.all_cons, Bool.and_eq_true] at h
    have ht := ih h.2
    simp only [pyLower, List.map_cons] at ht ⊢
    rw [toLower_of_hexChar c h.1, ht]

/-! ## Claim theorems -/

/-- Claim C2: the URL resolver evaluates exactly five rules in order with
first match winning — (1) `../images`/`../scripts` references lose the
leading `..` and gain the base origin, (2) `//` references gain `http:`,
(3) `/` references gain the base origin, (4) references not starting with
`http` are joined as base, `/`, reference, (5) anything else is unchanged —
the code's resolver is the spec resolver at its hard-coded base origin, and
the five example equalities of spec section 8 hold. -/
theorem resolve_five_rules :
    (∀ url, make_fully_qualified_url url = resolve baseOrigin url) ∧
    (∀ base url,
      pyStartsWith ("../images".toList) url = true ∨
        pyStartsWith ("../scripts".toList) url = true →
      resolve base url = base ++ url.drop 2) ∧
    (∀ base url,
      pyStartsWith ("../images".toList) url = false →
      pyStartsWith ("../scripts".toList) url = false →
      pyStartsWith ("//".toList) url = true →
      resolve base url = ("http:".toList) ++ url) ∧
    (∀ base url,
      pyStartsWith ("../images".toList) url = false →
      pyStartsWith ("../scripts".toList) url = false →
      pyStartsWith ("//".toList) url = false →
      pyStartsWith ("/".toList) url = true →
      resolve base url = base ++ url) ∧
    (∀ base url,
      pyStartsWith ("../images".toList) url = false →
      pyStartsWith ("../scripts".toList) url = false →
      pyStartsWith ("//".toList) url = false →
      pyStartsWith ("/".toList) url = false →
      pyStartsWith ("http".toList) url = false →
      resolve base url = base ++ '/' :: url) ∧
    (∀ base url,
      pyStartsWith ("../images".toList) url = false →
      pyStartsWith ("../scripts".toList) url = false →
      pyStartsWith ("//".toList) url = false →
      pyStartsWith ("/".toList) url = false →
      pyStartsWith ("http".toList) url = true →
      resolve base url = url) ∧
    (resolve ("https://example.com".toList) ("../images/a.png".toList) =
        ("https://example.com/images/a.png".toList) ∧
      resolve ("https://example.com".toList) ("//cdn.example.com/x.js".toList) =
        ("http://cdn.example.com/x.js".toList) ∧
      resolve ("https://example.com".toList) ("/foo".toList) =
        ("https://example.com/foo".toList) ∧
      resolve ("https://example.com".toList) ("bar.png".toList) =
        ("https://example.com/bar.png".toList) ∧
      resolve ("https://example.com".toList) ("https://other.com/y".toList) =
        ("https://other.com/y".toList)) := by
  refine ⟨fun url => rfl, ?_, ?_, ?_, ?_, ?_, ?_⟩
  · intro base url h
    rcases h with h | h
    · simp only [resolve]
      rw [h]
      simp
    · by_cases h1 : pyStartsWith ("../images".toList) url = true
      · simp only [resolve]
        rw [h1]
        simp
      · rw [Bool.not_eq_true] at h1
        simp only [resolve]
        rw [h1, h]
        simp
  · intro base url h1 h2 h3
    simp only [resolve]
    rw [h1, h2, h3]
    simp
  · intro base url h1 h2 h3 h4
    simp only [resolve]
    rw [h1, h2, h3, h4]
    simp
  · intro base url h1 h2 h3 h4 h5
    simp only [resolve]
    rw [h1, h2, h3, h4, h5]
    simp
  · intro base url h1 h2 h3 h4 h5
    simp only [resolve]
    rw [h1, h2, h3, h4, h5]
    simp
  · exact ⟨by decide, by decide, by decide, by decide, by decide⟩

/-- Witness for C2: the rules applied at concrete inputs. -/
theorem resolve_five_rules_witness :
    resolve ("https://example.com".toList) ("../images/a.png".toList) =
      ("https://example.com".toList) ++ ("../images/a.png".toList).drop 2 ∧
    resolve ("https://example.com".toList) ("/foo".toList) =
      ("https://example.com".toList) ++ ("/foo".toList) ∧
    resolve ("https://example.com".toList) ("https://other.com/y".toList) =
      ("https://other.com/y".toList) :=
  ⟨resolve_five_rules.2.1 _ _ (Or.inl (by decide)),
   resolve_five_rules.2.2.2.1 _ _ (by decide) (by decide) (by decide) (by decide),
   resolve_five_rules.2.2.2.2.2.1 _ _ (by decide) (by decide) (by decide) (by decide)
     (by decide)⟩

/-- Claim C8: `truncate_metadata` returns strings of at most 190 characters
unchanged; longer strings become their first 190 characters followed by
`" ..."`, a string of length 194, which exceeds the 190-character cap the
function is built around. -/
theorem truncate_metadata_spec (s : List Char) :
    (s.length ≤ 190 → truncate_metadata s = s) ∧
    (190 < s.length →
      truncate_metadata s = s.take 190 ++ (" ...".toList) ∧
      (truncate_metadata s).length = 194 ∧
      190 < (truncate_metadata s).length) := by
  constructor
  · intro h
    rw [truncate_metadata, if_neg (by omega)]
  · intro h
    have e : truncate_metadata s = s.take 190 ++ (" ...".toList) := by
      rw [truncate_metadata, if_pos h]
    have h4 : (" ...".toList).length = 4 := by decide
    have hlen : (truncate_metadata s).length = 194 := by
      rw [e, List.length_append, List.length_take, h4]
      omega
    exact ⟨e, hlen, by omega⟩

/-- Witness for C8: a short and a long concrete input. -/
theorem truncate_metadata_spec_witness :
    truncate_metadata ("abc".toList) = ("abc".toList) ∧
    (truncate_metadata (List.replicate 191 'a')).length = 194 :=
  ⟨(truncate_metadata_spec _).1 (by decide),
   ((truncate_metadata_spec _).2 (by rw [List.length_replicate]; omega)).2.1⟩

/-- The Python substring test agrees with list-infix containment. -/
theorem containsSub_iff (needle haystack : List Char) :
    containsSub needle haystack = true ↔ needle <:+: haystack := by
  rw [containsSub, List.any_eq_true]
  constructor
  · rintro ⟨t, ht, hpre⟩
    exact List.infix_iff_prefix_suffix.mpr
      ⟨t, List.isPrefixOf_iff_prefix.mp hpre, (List.mem_tails _ _).mp ht⟩
  · intro h
    obtain ⟨t, h2, h1⟩ := List.infix_iff_prefix_suffix.mp h
    exact ⟨t, (List.mem_tails _ _).mpr h1, List.isPrefixOf_iff_prefix.mpr h2⟩

/-- Every configured blacklist entry is already lower-case. -/
theorem url_blacklist_lower_fixed : ∀ item ∈ url_blacklist, pyLower item = item := by
  decide

/-- Claim C3: `is_blacklisted(url)` is true exactly when some configured
blacklist substring occurs in the URL under case-insensitive comparison
(some substring of the URL equals the entry once both are lower-cased). -/
theorem is_blacklisted_iff (url : List Char) :
    is_blacklisted url = true ↔
    ∃ item ∈ url_blacklist, ∃ s : List Char, s <:+: url ∧ pyLower s = pyLower item := by
  rw [is_blacklisted, List.any_eq_true]
  constructor
  · rintro ⟨item, hitem, hc⟩
    have hfix := url_blacklist_lower_fixed item hitem
    obtain ⟨l1, l2, e⟩ := (containsSub_iff _ _).mp hc
    rw [pyLower] at e
    obtain ⟨u12, u3, hu, e12, e3⟩ := List.map_eq_append_iff.mp e.symm
    obtain ⟨ua, ub, hu2, ea, eb⟩ := List.map_eq_append_iff.mp e12
    refine ⟨item, hitem, ub, ?_, ?_⟩
    · exact ⟨ua, u3, by rw [hu, hu2]⟩
    · rw [pyLower, eb, hfix]
  · rintro ⟨item, hitem, s, hs, hlow⟩
    refine ⟨item, hitem, (containsSub_iff _ _).mpr ?_⟩
    have hmap : pyLower s <:+: pyLower url := by
      obtain ⟨l1, l2, e⟩ := hs
      exact ⟨pyLower l1, pyLower l2, by rw [← e]; simp [pyLower]⟩
    rw [hlow, url_blacklist_lower_fixed item hitem] at hmap
    exact hmap

/-- Claim C4: two `derive_filename` calls never return the same filename,
because each call draws a fresh `uuid.uuid4().hex` token: whenever the two
32-digit hexadecimal tokens differ, the derived filenames differ, whatever
the two URLs are (in particular for distinct URLs with identical basenames). -/
theorem derive_filename_no_collision (t1 t2 u1 u2 : List Char)
    (h1 : isUuidHexToken t1 = true) (h2 : isUuidHexToken t2 = true)
    (hne : t1 ≠ t2) : derive_filename t1 u1 ≠ derive_filename t2 u2 := by
  simp only [isUuidHexToken, Bool.and_eq_true, beq_iff_eq] at h1 h2
  intro he
  rw [derive_filename, derive_filename] at he
  have e1 : pyLower t1 = t1 := pyLower_of_all_hex t1 h1.2
  have e2 : pyLower t2 = t2 := pyLower_of_all_hex t2 h2.2
  simp only [pyLower, List.map_append, List.map_cons] at he e1 e2
  rw [e1, e2] at he
  have hlen : t1.length = t2.length := by rw [h1.1, h2.1]
  exact hne (List.append_inj he hlen).1

/-- Witness for C4: two distinct URLs with the same basename, two distinct
fresh tokens. -/
theorem derive_filename_no_collision_witness :
    derive_filename tokenA ("https://k12.thoughtfullearning.com/a/logo.png".toList) ≠
    derive_filename tokenB ("https://k12.thoughtfullearning.com/b/logo.png".toList) :=
  derive_filename_no_collision tokenA tokenB _ _ (by decide) (by decide) (by decide)

/-- Claim C5: `derive_filename` output is the fresh token, a dot, and the
basename of the URL's path with every percent sign replaced, the whole
string lower-cased: it contains no `%` and no upper-case letter. -/
theorem derive_filename_shape (token url : List Char)
    (htok : token.all isHexChar = true) :
    derive_filename token url =
      token ++ '.' :: pyLower (pyReplaceChar '%' '_' (basename (urlparse url).path)) ∧
    (∀ c ∈ derive_filename token url, c ≠ '%') ∧
    (∀ c ∈ derive_filename token url, c.isUpper = false) := by
  refine ⟨?_, ?_, ?_⟩
  · rw [derive_filename]
    have e1 : pyLower token = token := pyLower_of_all_hex token htok
    simp only [pyLower, List.map_append, List.map_cons] at e1 ⊢
    rw [e1, show Char.toLower '.' = '.' from by decide]
  · intro c hc
    rw [derive_filename] at hc
    simp only [pyLower, List.mem_map] at hc
    obtain ⟨c0, hc0, rfl⟩ := hc
    refine toLower_ne_pct c0 ?_
    rcases List.mem_append.mp hc0 with hm | hm
    · exact hexChar_ne_pct c0 (by
        have := List.all_eq_true.mp htok
        exact this c0 hm)
    · rcases List.mem_cons.mp hm with rfl | hm2
      · decide
      · simp only [pyReplaceChar, List.mem_map] at hm2
        obtain ⟨c1, _, rfl⟩ := hm2
        by_cases hq : c1 = '%'
        · simp [hq]
        · simp [hq]
  · intro c hc
    rw [derive_filename] at hc
    simp only [pyLower, List.mem_map] at hc
    obtain ⟨c0, hc0, rfl⟩ := hc
    exact isUpper_toLower c0

/-- Witness for C5: a URL whose path basename has a percent escape and
upper-case letters. -/
theorem derive_filename_shape_witness :
    derive_filename hexTok ("https://k12.thoughtfullearning.com/files/A%20B.PNG?v=2".toList) =
      hexTok ++ '.' :: pyLower (pyReplaceChar '%' '_'
        (basename (urlparse
          ("https://k12.thoughtfullearning.com/files/A%20B.PNG?v=2".toList)).path)) :=
  (derive_filename_shape hexTok _ (by decide)).1

/-- Claim C1 (what the code actually does): for a fetch target failing with a
connection error or read timeout on every attempt, `make_request` with
default arguments issues exactly 5 attempts and sleeps 1, 2, 3, 4, 5 time
units, but then, instead of returning a not-found sentinel, it evaluates the
unbound name `Dummy404ResponseObject` and so raises `NameError`. -/
theorem make_request_exhaustion_raises (jar : CookieJar) :
    (make_request alwaysFails true jar).result = MRResult.nameErrorDummy404 ∧
    (make_request alwaysFails true jar).sleeps = [1, 2, 3, 4, 5] ∧
    (make_request alwaysFails true jar).sentCookies.length = 5 :=
  ⟨rfl, rfl, rfl⟩

/-- If the fetch oracle completes on attempt `j < 5` after failing attempts,
the retry loop ends with that attempt's response. -/
theorem make_request_loop_success (fetch : Nat → FetchOutcome) (jar : CookieJar)
    (r : Response) :
    ∀ (j rc fuel : Nat), j < fuel → rc + fuel = 5 →
      (∀ i, i < j → fetch (rc + i) = FetchOutcome.connError) →
      fetch (rc + j) = FetchOutcome.success r →
      (make_request_loop fetch jar rc fuel).1 = MRResult.response r := by
  intro j
  induction j with
  | zero =>
    intro rc fuel hj hsum hfail hok
    cases fuel with
    | zero => exact absurd hj (by omega)
    | succ f =>
      have hok2 : fetch rc = FetchOutcome.success r := by simpa using hok
      simp [make_request_loop, hok2]
  | succ k ih =>
    intro rc fuel hj hsum hfail hok
    cases fuel with
    | zero => exact absurd hj (by omega)
    | succ f =>
      have hfail0 : fetch rc = FetchOutcome.connError := by
        simpa using hfail 0 (by omega)
      have hlt : ¬ (5 ≤ rc + 1) := by omega
      have hrec := ih (rc + 1) f (by omega) (by omega)
        (fun i hi => by
          have h := hfail (i + 1) (by omega)
          rw [show rc + (i + 1) = rc + 1 + i from by omega] at h
          exact h)
        (by
          rw [show rc + 1 + k = rc + (k + 1) from by omega]
          exact hok)
      simp [make_request_loop, hfail0, hlt, hrec]

/-- Claim C6: when a fetch completes with any HTTP status, `make_request`
returns that response unchanged (body included) and merely logs when the
status is not 200; a non-200 status is never turned into an error. -/
theorem make_request_non200_returned (fetch : Nat → FetchOutcome)
    (jar : CookieJar) (j : Nat) (r : Response) (hj : j < 5)
    (hfail : ∀ i, i < j → fetch i = FetchOutcome.connError)
    (hok : fetch j = FetchOutcome.success r) :
    (make_request fetch true jar).result = MRResult.response r ∧
    (make_request fetch true jar).loggedNotFound = decide (r.status ≠ 200) := by
  have h1 : (make_request_loop fetch [] 0 5).1 = MRResult.response r :=
    make_request_loop_success fetch [] r j 0 5 hj (by omega)
      (by simpa using hfail) (by simpa using hok)
  constructor
  · simp [make_request, h1]
  · simp [make_request, h1]

/-- Witness for C6: the 404 response reaches the caller unchanged and the
not-found log fires. -/
theorem make_request_non200_returned_witness :
    (make_request fetch404 true []).result =
      MRResult.response { status := 404, body := ("oops".toList) } ∧
    (make_request fetch404 true []).loggedNotFound = decide ((404 : Nat) ≠ 200) :=
  make_request_non200_returned fetch404 [] 2 _ (by omega) (by decide) (by decide)

/-- Every request the retry loop issues carries the jar it was started with. -/
theorem make_request_loop_cookies (fetch : Nat → FetchOutcome) (jar0 : CookieJar) :
    ∀ (fuel rc : Nat) (c : CookieJar),
      c ∈ (make_request_loop fetch jar0 rc fuel).2.1 → c = jar0 := by
  intro fuel
  induction fuel with
  | zero =>
    intro rc c hc
    simp [make_request_loop] at hc
  | succ f ih =>
    intro rc c hc
    cases hf : fetch rc with
    | success r =>
      simp [make_request_loop, hf] at hc
      exact hc
    | connError =>
      by_cases h5 : 5 ≤ rc + 1
      · simp [make_request_loop, hf, h5] at hc
        exact hc
      · simp [make_request_loop, hf, h5] at hc
        rcases hc with rfl | hc
        · rfl
        · exact ih (rc + 1) c hc

/-- Claim C7: with `clear_cookies=True` (the default, used by every call in
this program), the session cookie store is cleared before the loop, so every
request issued by `make_request` carries an empty cookie jar whatever cookies
prior requests had stored. -/
theorem make_request_clears_cookies (fetch : Nat → FetchOutcome)
    (jar : CookieJar) (c : CookieJar)
    (hc : c ∈ (make_request fetch true jar).sentCookies) : c = [] := by
  have he : (make_request fetch true jar).sentCookies =
      (make_request_loop fetch [] 0 5).2.1 := by
    simp [make_request]
  rw [he] at hc
  exact make_request_loop_cookies fetch [] 5 0 c hc

/-- Witness for C7: a session holding a cookie from a prior request still
issues its next request with an empty jar. -/
theorem make_request_clears_cookies_witness : ([] : CookieJar) = [] :=
  make_request_clears_cookies
    (fun _ => FetchOutcome.success { status := 200, body := [] })
    [(("session".toList), ("abc".toList))] [] (by decide)

/-- Claim C9: `get_youtube_id_from_url` returns `None` without raising for
every non-YouTube hostname and for every youtube.com path that is not
`/watch`, does not begin with `/embed/` and does not begin with `/v/`; for
`youtu.be` it returns the path with its leading slash removed; for a
`/watch` path it returns the first `v` query value when one is present, and
raises `KeyError` when the query has no `v` parameter. -/
theorem get_youtube_id_cases (url : List Char) :
    (hostnameOf (urlparse url) ≠ some ("youtu.be".toList) →
      hostnameOf (urlparse url) ≠ some ("www.youtube.com".toList) →
      hostnameOf (urlparse url) ≠ some ("youtube.com".toList) →
      get_youtube_id_from_url url = Except.ok none) ∧
    ((hostnameOf (urlparse url) = some ("www.youtube.com".toList) ∨
        hostnameOf (urlparse url) = some ("youtube.com".toList)) →
      (urlparse url).path ≠ ("/watch".toList) →
      (urlparse url).path.take 7 ≠ ("/embed/".toList) →
      (urlparse url).path.take 3 ≠ ("/v/".toList) →
      get_youtube_id_from_url url = Except.ok none) ∧
    (hostnameOf (urlparse url) = some ("youtu.be".toList) →
      get_youtube_id_from_url url = Except.ok (some ((urlparse url).path.drop 1))) ∧
    ((hostnameOf (urlparse url) = some ("www.youtube.com".toList) ∨
        hostnameOf (urlparse url) = some ("youtube.com".toList)) →
      (urlparse url).path = ("/watch".toList) →
      ((∀ v, qsFirstValue ("v".toList) (urlparse url).query = some v →
          get_youtube_id_from_url url = Except.ok (some v)) ∧
        (qsFirstValue ("v".toList) (urlparse url).query = none →
          get_youtube_id_from_url url = Except.error PyErr.keyError))) := by
  refine ⟨?_, ?_, ?_, ?_⟩
  · intro h1 h2 h3
    simp only [get_youtube_id_from_url]
    rw [if_neg h1, if_neg (by
      intro hd
      rcases hd with hd | hd
      · exact h2 hd
      · exact h3 hd)]
  · intro hdisj hp1 hp2 hp3
    have hne : hostnameOf (urlparse url) ≠ some ("youtu.be".toList) := by
      rcases hdisj with h | h <;> rw [h] <;> decide
    simp only [get_youtube_id_from_url]
    rw [if_neg hne, if_pos hdisj, if_neg hp1, if_neg hp2, if_neg hp3]
  · intro h
    simp only [get_youtube_id_from_url]
    rw [if_pos h]
  · intro hdisj hpath
    have hne : hostnameOf (urlparse url) ≠ some ("youtu.be".toList) := by
      rcases hdisj with h | h <;> rw [h] <;> decide
    constructor
    · intro v hv
      simp only [get_youtube_id_from_url]
      rw [if_neg hne, if_pos hdisj, if_pos hpath, hv]
    · intro hv
      simp only [get_youtube_id_from_url]
      rw [if_neg hne, if_pos hdisj, if_pos hpath, hv]

/-- Witness for C9: each branch exercised at a concrete URL. -/
theorem get_youtube_id_cases_witness :
    get_youtube_id_from_url ("https://vimeo.com/123".toList) = Except.ok none ∧
    get_youtube_id_from_url ("http://www.youtube.com/playlist?list=x".toList) =
      Except.ok none ∧
    get_youtube_id_from_url ("http://youtu.be/SA2iWivDJiE".toList) =
      Except.ok (some ((urlparse ("http://youtu.be/SA2iWivDJiE".toList)).path.drop 1)) ∧
    get_youtube_id_from_url
        ("http://www.youtube.com/watch?v=_oPAwA_Udwc&feature=feedu".toList) =
      Except.ok (some ("_oPAwA_Udwc".toList)) ∧
    get_youtube_id_from_url ("http://www.youtube.com/watch?feature=x".toList) =
      Except.error PyErr.keyError :=
  ⟨(get_youtube_id_cases _).1 (by decide) (by decide) (by decide),
   (get_youtube_id_cases _).2.1 (Or.inl (by decide)) (by decide) (by decide) (by decide),
   (get_youtube_id_cases _).2.2.1 (by decide),
   ((get_youtube_id_cases _).2.2.2 (Or.inl (by decide)) (by decide)).1
     ("_oPAwA_Udwc".toList) (by decide),
   ((get_youtube_id_cases _).2.2.2 (Or.inl (by decide)) (by decide)).2 (by decide)⟩

/-- Claim C10: when no element of the document matches the selector,
`remove_node` returns the document unchanged; when at least one does, the
first match in document order is removed together with its subtree and the
rest of the document order is untouched. -/
theorem remove_node_first_match (p : Nat → Bool) (doc : List HNode) :
    (select_one p doc = none → remove_node p doc = doc) ∧
    (∀ m, select_one p doc = some m →
      ∃ pre ch suf, flattenLabels doc = pre ++ (m :: flattenLabels ch) ++ suf ∧
        flattenLabels (remove_node p doc) = pre ++ suf ∧
        (∀ x ∈ pre, p x = false) ∧ p m = true) := by
  constructor
  · intro hnone
    have hall : ∀ x ∈ flattenLabels doc, p x = false := by
      intro x hx
      have := List.find?_eq_none.mp hnone x hx
      simpa using this
    have h2 := removeFirstF_eq_none p doc hall
    simp [remove_node, h2]
  · intro m hm
    cases e : removeFirstF p doc with
    | none =>
      have hall := all_false_of_removeFirstF_none p doc e
      have h2 : select_one p doc = none := by
        rw [select_one, List.find?_eq_none]
        intro x hx
        simp [hall x hx]
      simp [h2] at hm
    | some doc2 =>
      obtain ⟨pre, b, bc, suf, e1, e2, hpre, hb⟩ := removeFirstF_some_span p doc doc2 e
      have hfind : select_one p doc = some b := by
        rw [select_one, e1]
        exact find?_span p pre (flattenLabels bc) suf b hpre hb
      rw [hm] at hfind
      obtain rfl : m = b := by simpa using hfind
      refine ⟨pre, bc, suf, e1, ?_, hpre, hb⟩
      simpa [remove_node, e] using e2

theorem select_one_of_single : select_one sel2 [HNode.node 1 []] = none := by
  have h : flattenLabels [HNode.node 1 []] = [1] := by simp [flattenLabels]
  rw [select_one, h]
  decide

theorem select_one_of_doc2 : select_one sel2 doc2 = some 2 := by
  have h : flattenLabels doc2 = [1, 2, 3, 5] := by simp [doc2, flattenLabels]
  rw [select_one, h]
  decide

/-- Witness for C10: nothing matches in a one-element document, which is
returned untouched, and in `doc2` the first match (label 2) is excised with
its subtree. -/
theorem remove_node_first_match_witness :
    remove_node sel2 [HNode.node 1 []] = [HNode.node 1 []] ∧
    (∃ pre ch suf,
      flattenLabels doc2 = pre ++ (2 :: flattenLabels ch) ++ suf ∧
      flattenLabels (remove_node sel2 doc2) = pre ++ suf ∧
      (∀ x ∈ pre, sel2 x = false) ∧ sel2 2 = true) :=
  ⟨(remove_node_first_match sel2 [HNode.node 1 []]).1 select_one_of_single,
   (remove_node_first_match sel2 doc2).2 2 select_one_of_doc2⟩

end Chef
